import Mathlib

/-!
Verification development for the hybrid grep router (`src/grep.ts`).

The TypeScript source is shallowly embedded: each helper of the source is
translated into an executable Lean definition operating on `String`
(represented as a list of characters), external subprocess execution is
abstracted as an oracle `List String → ExecResult` mapping an argument
vector to the observed process result, and the event-driven contention
gate is modelled as an explicit state machine over event traces.

JavaScript string semantics are mirrored by hand-rolled primitives
(`jsTrim`, `jsSplitLines`, substring search, the specific regexes used by
the source) so that every definition reduces inside the kernel.
Whitespace is modelled as the ASCII whitespace characters; the source's
regexes only ever rely on those.
-/

set_option maxRecDepth 20000

/-- ASCII whitespace, mirroring the characters JavaScript's `trim` / `\s`
strip in the inputs this program handles. -/
def isJsSpace (c : Char) : Bool :=
  c = ' ' || c = '\t' || c = '\n' || c = '\r' || c = '\x0b' || c = '\x0c'

/-- Trim on a character list: drop whitespace from both ends. -/
def trimChars (l : List Char) : List Char :=
  ((l.dropWhile isJsSpace).reverse.dropWhile isJsSpace).reverse

/-- JavaScript `String.prototype.trim`. -/
def jsTrim (s : String) : String :=
  String.mk (trimChars s.data)

/-- JavaScript `String.prototype.toLowerCase` (ASCII range suffices for the
phrase matching performed by the source). -/
def jsToLower (s : String) : String :=
  String.mk (s.data.map Char.toLower)

/-- Substring occurrence on character lists (JS `String.prototype.includes`). -/
def hasSubL (needle : List Char) : List Char → Bool
  | [] => needle.isEmpty
  | c :: cs => needle.isPrefixOf (c :: cs) || hasSubL needle cs

/-- JS `hay.includes(needle)`. -/
def containsSub (hay needle : String) : Bool :=
  hasSubL needle.data hay.data

/-- JS `s.startsWith(t)`. -/
def startsWithStr (s t : String) : Bool :=
  t.data.isPrefixOf s.data

/-- JS `s.split(sep)` for a one-character separator, on a character list;
always returns at least one (possibly empty) segment, exactly like the
JavaScript original. -/
def splitCharL (sep : Char) : List Char → List (List Char)
  | [] => [[]]
  | c :: cs =>
    match splitCharL sep cs with
    | [] => [[c]]
    | h :: t => if c = sep then [] :: h :: t else (c :: h) :: t

/-- JS `s.split("\n")`. -/
def jsSplitLines (s : String) : List String :=
  (splitCharL '\n' s.data).map String.mk

/-- JS `s.split(",")`. -/
def jsSplitCommas (s : String) : List String :=
  (splitCharL ',' s.data).map String.mk

/-- JS `parts.join("\n")`. -/
def joinLines : List String → String
  | [] => ""
  | [s] => s
  | s :: t => s ++ "\n" ++ joinLines t

/-- Numeric value of a digit run (JS `parseInt(digits, 10)`). -/
def digitsToNat (l : List Char) : Nat :=
  l.foldl (fun acc c => acc * 10 + (c.toNat - '0'.toNat)) 0

/-- Leftmost occurrence of the regex `(\d+)<suffix>` for one of the given
literal suffixes: scan positions left to right; a position matches when a
maximal nonempty digit run starting there is immediately followed by one of
the suffixes.  Returns the captured number. -/
def scanNum (sufs : List (List Char)) : List Char → Option Nat
  | [] => none
  | c :: cs =>
    if c.isDigit then
      let ds := (c :: cs).takeWhile Char.isDigit
      let rest := (c :: cs).drop ds.length
      if sufs.any (fun suf => suf.isPrefixOf rest) then some (digitsToNat ds)
      else scanNum sufs cs
    else scanNum sufs cs

-- ── data model ──────────────────────────────────────────────────────────

/-- `GrepDetails` from the source: the structured summary attached to a
non-error response.  Absent optional properties are `none`. -/
structure GrepDetails where
  resultCount : Nat
  query : Option String := none
  pattern : Option String := none
  searchPath : Option String := none
  files : Option (List String) := none
  engine : Option String := none
  fallback : Option Bool := none
  filesSearched : Option Int := none
  filesMatched : Option Int := none
  searchComplete : Option Bool := none
deriving DecidableEq, Repr

/-- A tool response: the single text content item, the error flag, and the
optional details object. -/
structure Response where
  text : String
  isError : Bool
  details : Option GrepDetails := none
deriving DecidableEq, Repr

/-- Result of one external process invocation (`pi.exec`): exit code,
possibly-absent stdout/stderr, and the killed/timeout flag. -/
structure ExecResult where
  code : Int
  stdout : Option String := none
  stderr : Option String := none
  killed : Bool := false
deriving DecidableEq, Repr

/-- The unified request parameter set of the `grep` tool. -/
structure Params where
  query : Option String := none
  pattern : Option String := none
  path : Option String := none
  glob : Option String := none
  type : Option String := none
  i : Option Bool := none
  content : Option Bool := none
  limit : Option Int := none
  offset : Option Int := none
  pre : Option Int := none
  post : Option Int := none
  context_lines : Option Int := none
  multiline : Option Bool := none
  code_only : Option Bool := none
  exclude : Option String := none
  exclude_dir : Option String := none
  files_only : Option Bool := none
  fixed_strings : Option Bool := none
  word_regexp : Option Bool := none
deriving DecidableEq, Repr

/-- Invocation context: only the working directory is consulted. -/
structure Ctx where
  cwd : String
deriving DecidableEq, Repr

/-- JS truthiness of an optional string: present and nonempty. -/
def truthyStr : Option String → Bool
  | none => false
  | some s => !s.isEmpty

/-- An optional string filtered through JS truthiness. -/
def strOpt : Option String → Option String
  | none => none
  | some s => if s.isEmpty then none else some s

/-- `(params.limit && params.limit > 0) ? params.limit : 100`. -/
def jsLimit : Option Int → Int
  | none => 100
  | some l => if 0 < l then l else 100

/-- `(params.offset && params.offset > 0) ? params.offset : 0`. -/
def jsOffset : Option Int → Nat
  | none => 0
  | some o => if 0 < o then o.toNat else 0

/-- `params.path || ctx.cwd`. -/
def searchPathOf (p : Params) (ctx : Ctx) : String :=
  match strOpt p.path with
  | some s => s
  | none => ctx.cwd

/-- `result.stdout ?? ""`-style coalescing used before `trim`. -/
def optStr : Option String → String
  | none => ""
  | some s => s

-- ── glob splitter ───────────────────────────────────────────────────────

/-- Loop body of `splitGlobs`: `depth` is the brace nesting level (an
integer, since an unmatched `}` drives it negative exactly as in the
source), `acc` the characters of the current segment in reverse. -/
def splitGlobsGo : List Char → Int → List Char → List String
  | [], _, acc =>
    let g := jsTrim (String.mk acc.reverse)
    if g = "" then [] else [g]
  | c :: rest, depth, acc =>
    if c = '\x7b' then splitGlobsGo rest (depth + 1) (c :: acc)
    else if c = '\x7d' then splitGlobsGo rest (depth - 1) (c :: acc)
    else if c = ',' && depth = 0 then
      let g := jsTrim (String.mk acc.reverse)
      (if g = "" then [] else [g]) ++ splitGlobsGo rest depth []
    else splitGlobsGo rest depth (c :: acc)

/-- `splitGlobs` from the source: split on commas outside `{}` braces to
preserve brace expansion like `*.{ts,js}`. -/
def splitGlobs (input : String) : List String :=
  splitGlobsGo input.data 0 []

example : splitGlobs "*.{ts,js},*.md" = ["*.{ts,js}", "*.md"] := by decide
example : splitGlobs "*.{a,b}" = ["*.{a,b}"] := by decide
example : splitGlobs " a , b " = ["a", "b"] := by decide
example : splitGlobs "" = [] := by decide

-- ── ripgrep: stats parsing ──────────────────────────────────────────────

/-- Parsed `--stats` summary: cleaned body plus the two counts (−1 when the
corresponding phrase is absent). -/
structure RgStats where
  clean : String
  filesSearched : Int
  filesMatched : Int
deriving DecidableEq, Repr

/-- Core of the stats-stripping regex `\d+ matches?\n`: a nonempty digit
run immediately followed by `" matche\n"` or `" matches\n"`. -/
def statsCore (cs : List Char) : Bool :=
  let ds := cs.takeWhile Char.isDigit
  !ds.isEmpty &&
    (let rest := cs.drop ds.length
     " matches\n".data.isPrefixOf rest || " matche\n".data.isPrefixOf rest)

/-- `stdout.replace(/\n?\d+ matches?\n[\s\S]*$/, "")`: cut everything from
the leftmost position where an optional newline followed by the stats core
matches, through the end of the string. -/
def stripStatsL : List Char → List Char
  | [] => []
  | c :: cs =>
    if (c = '\n' && statsCore cs) || statsCore (c :: cs) then []
    else c :: stripStatsL cs

/-- `parseAndStripRgStats` from the source. -/
def parseAndStripRgStats (stdout : String) : RgStats :=
  let searched := scanNum [" files searched".data, " file searched".data] stdout.data
  let matched := scanNum
    [" files contained matches".data, " file contained matches".data] stdout.data
  { clean := jsTrim (String.mk (stripStatsL stdout.data))
    filesSearched := match searched with | some n => (n : Int) | none => -1
    filesMatched := match matched with | some n => (n : Int) | none => -1 }

example :
    parseAndStripRgStats "src/a.ts\n1:hit\n2 matches\n1 files searched\n" =
      { clean := "src/a.ts\n1:hit", filesSearched := 1, filesMatched := -1 } := by
  decide

-- ── ripgrep: line classification and offset pass ────────────────────────

/-- `line.match(/^\d+[:\-]/)`: a nonempty leading digit run immediately
followed by `:` or `-`. -/
def isNumPrefixed (l : String) : Bool :=
  let ds := l.data.takeWhile Char.isDigit
  let nxt := (l.data.drop ds.length).head?
  !ds.isEmpty && (nxt = some ':' || nxt = some '-')

/-- `line.match(/^\d+:/)`: a matched line of ripgrep's heading output. -/
def isMatchLine (l : String) : Bool :=
  let ds := l.data.takeWhile Char.isDigit
  !ds.isEmpty && ((l.data.drop ds.length).head? = some ':')

/-- The heading test used by both the offset pass and the file-list scan:
`line && !/^\d+[:\-]/ && !startsWith(" ") && trim !== "--"`. -/
def isHeadingLine (l : String) : Bool :=
  !l.isEmpty && !isNumPrefixed l && !startsWithStr l " " && jsTrim l ≠ "--"

/-- Number of matched lines in a block of output. -/
def countMatchLines (ls : List String) : Nat :=
  ls.countP (fun l => isMatchLine l)

/-- The offset-suppression loop of `execRipgrep`: `skipped` counts
suppressed matches so far, `cur` is the pending heading (`""` when none).
Headings are withheld and re-emitted immediately before the first kept
match under them; all other lines pass through unchanged. -/
def offsetGo (off : Nat) : List String → Nat → String → List String
  | [], _, _ => []
  | l :: ls, skipped, cur =>
    if isHeadingLine l then offsetGo off ls skipped l
    else if isMatchLine l then
      if skipped < off then offsetGo off ls (skipped + 1) cur
      else if cur ≠ "" then cur :: l :: offsetGo off ls skipped ""
      else l :: offsetGo off ls skipped ""
    else l :: offsetGo off ls skipped cur

/-- The offset pass over the split output lines. -/
def offsetPass (off : Nat) (lines : List String) : List String :=
  offsetGo off lines 0 ""

example :
    offsetPass 1 ["a.ts", "1:x", "2:y", "b.ts", "3:z"] =
      ["a.ts", "2:y", "b.ts", "3:z"] := by decide
example :
    offsetPass 2 ["a.ts", "1:x", "2:y", "b.ts", "3:z"] = ["b.ts", "3:z"] := by
  decide
example :
    offsetPass 3 ["a.ts", "1:x", "2-c", "2:y", "b.ts", "3:z"] = ["2-c"] := by
  decide

-- ── ripgrep: file list and argument building ────────────────────────────

/-- The file-list scan of `execRipgrep`: collect heading lines, skipping
exact-string duplicates (`files.includes`). -/
def collectRgFiles (ls : List String) : List String :=
  ls.foldl (fun fs l => if isHeadingLine l && !fs.contains l then fs ++ [l] else fs) []

/-- The `code_only` exclusion globs (`CODE_ONLY_EXCLUDES`). -/
def CODE_ONLY_EXCLUDES : List String :=
  ["*.md", "*.markdown", "*.txt", "*.text", "*.rst", "*.adoc", "*.asciidoc", "*.org",
   "*.yml", "*.yaml", "*.toml", "*.json",
   "*.sh", "*.bash", "*.zsh", "*.ps1",
   "Dockerfile", "Makefile", "GNUmakefile", "makefile"]

/-- `params.pattern?.includes("\\n") || params.pattern?.includes("\n")`:
the pattern contains an escaped or literal newline. -/
def patternHasNewline (p : Params) : Bool :=
  match p.pattern with
  | none => false
  | some pat => containsSub pat "\\n" || containsSub pat "\n"

/-- `params.multiline ?? patternHasNewline`: nullish coalescing, so an
explicit `false` wins over auto-detection. -/
def effectiveMultiline (p : Params) : Bool :=
  p.multiline.getD (patternHasNewline p)

/-- The ripgrep argument vector, built in the source's push order. -/
def buildRgArgs (p : Params) (ctx : Ctx) : List String :=
  ["--color=never", "--line-number", "--heading", "--hidden", "--stats"]
  ++ ["--max-count", toString (jsLimit p.limit)]
  ++ (if p.i.getD false then ["-i"] else [])
  ++ (if p.fixed_strings.getD false then ["-F"] else [])
  ++ (if p.word_regexp.getD false then ["-w"] else [])
  ++ (if p.files_only.getD false then ["-l"] else [])
  ++ (match strOpt p.type with | some t => ["-t", t] | none => [])
  ++ (if effectiveMultiline p then ["--multiline"] else [])
  ++ (match p.pre with | some n => ["-B", toString n] | none => [])
  ++ (match p.post with | some n => ["-A", toString n] | none => [])
  ++ (match strOpt p.glob with
      | some g => (splitGlobs g).foldl (fun acc x => acc ++ ["-g", x]) []
      | none => [])
  ++ (match strOpt p.exclude with
      | some e => (splitGlobs e).foldl (fun acc x => acc ++ ["-g", "!" ++ x]) []
      | none => [])
  ++ (match strOpt p.exclude_dir with
      | some ds =>
        (jsSplitCommas ds).foldl
          (fun acc d =>
            let t := jsTrim d
            if t = "" then acc else acc ++ ["-g", "!" ++ t ++ "/**"]) []
      | none => [])
  ++ (if p.code_only.getD false then
        CODE_ONLY_EXCLUDES.foldl (fun acc e => acc ++ ["-g", "!" ++ e]) []
      else [])
  ++ ["--", p.pattern.getD ""]
  ++ [searchPathOf p ctx]

-- ── ripgrep: response assembly ──────────────────────────────────────────

/-- The lexical engine's summary header `[s:<N> m:<M> complete]`; both
counts are printed as JS numbers (so an unknown count appears as `-1`). -/
def rgHeader (n m : Int) : String :=
  "[s:" ++ toString n ++ " m:" ++ toString m ++ " complete]"

/-- The zero-result success response of the ripgrep path. -/
def rgZeroResp (p : Params) (n : Int) : Response :=
  { text := rgHeader n 0 ++ "\n" ++ "No matches found"
    isError := false
    details := some
      { resultCount := 0, pattern := p.pattern, engine := some "rg"
        filesSearched := some n, filesMatched := some 0, searchComplete := some true } }

/-- The populated success response of the ripgrep path: parse the heading
output for the file list and the matched-line count. -/
def rgFinalResp (p : Params) (ctx : Ctx) (n m : Int) (stdout : String) : Response :=
  let outputLines := jsSplitLines stdout
  let files := collectRgFiles outputLines
  let matchCount := countMatchLines outputLines
  { text := rgHeader n m ++ "\n" ++ stdout
    isError := false
    details := some
      { resultCount := if matchCount = 0 then files.length else matchCount
        pattern := p.pattern, searchPath := some (searchPathOf p ctx)
        files := some files, engine := some "rg"
        filesSearched := some n, filesMatched := some m, searchComplete := some true } }

/-- Post-exec stdout processing of `execRipgrep` (statistics stripping,
the zero-result branches, the offset pass, and final parsing). -/
def rgProcess (p : Params) (ctx : Ctx) (code : Int) (rawStdout : String) : Response :=
  let stats := parseAndStripRgStats rawStdout
  let stdout0 := stats.clean
  if stdout0 = "" || code = 1 then rgZeroResp p stats.filesSearched
  else
    let off := jsOffset p.offset
    if 0 < off then
      let stdout1 := jsTrim (joinLines (offsetPass off (jsSplitLines stdout0)))
      if stdout1 = "" then rgZeroResp p stats.filesSearched
      else rgFinalResp p ctx stats.filesSearched stats.filesMatched stdout1
    else rgFinalResp p ctx stats.filesSearched stats.filesMatched stdout0

/-- Shared tail of `execRipgrep` after the (possibly retried) subprocess
run: the killed check, the fatal exit-status check, and stdout processing. -/
def rgAfterExec (p : Params) (ctx : Ctx) (result : ExecResult) : Response :=
  if result.killed then
    { text := "Error: ripgrep timed out or was aborted.", isError := true }
  else if result.code = 2 then
    let st := jsTrim (optStr result.stderr)
    { text := "Error: " ++ (if st = "" then "ripgrep error" else st), isError := true }
  else rgProcess p ctx result.code (jsTrim (optStr result.stdout))

/-- `execRipgrep` with an explicit record of the argument vectors passed
to the engine, in invocation order (for the PCRE2 auto-retry analysis).
`ex` is the subprocess oracle. -/
def execRipgrepT (ex : List String → ExecResult) (p : Params) (ctx : Ctx) :
    Response × List (List String) :=
  let args := buildRgArgs p ctx
  let r1 := ex args
  if r1.code = 2 && !(p.fixed_strings.getD false) then
    let st := jsToLower (optStr r1.stderr)
    if containsSub st "look-around" || containsSub st "backreference"
        || containsSub st "pcre2" then
      (rgAfterExec p ctx (ex ("-P" :: args)), [args, "-P" :: args])
    else (rgAfterExec p ctx r1, [args])
  else (rgAfterExec p ctx r1, [args])

/-- `execRipgrep` from the source. -/
def execRipgrep (ex : List String → ExecResult) (p : Params) (ctx : Ctx) : Response :=
  (execRipgrepT ex p ctx).1

-- ── colgrep engine ──────────────────────────────────────────────────────

/-- The colgrep argument vector, in the source's push order. -/
def buildColArgs (p : Params) (ctx : Ctx) : List String :=
  ["-y"]
  ++ (if p.content.getD false then ["-c"] else [])
  ++ ["-k", toString (jsLimit p.limit)]
  ++ (match strOpt p.glob with
      | some g => (splitGlobs g).foldl (fun acc x => acc ++ ["--include", x]) []
      | none => [])
  ++ (if p.code_only.getD false then ["--code-only"] else [])
  ++ (if p.files_only.getD false then ["-l"] else [])
  ++ (if p.fixed_strings.getD false then ["-F"] else [])
  ++ (if p.word_regexp.getD false then ["-w"] else [])
  ++ (match p.context_lines with
      | some n => ["-n", toString n]
      | none =>
        if p.pre ≠ none ∨ p.post ≠ none then
          ["-n", toString (p.pre.getD 0 + p.post.getD 0 + 1)]
        else [])
  ++ (match strOpt p.exclude with
      | some e => (splitGlobs e).foldl (fun acc x => acc ++ ["--exclude", x]) []
      | none => [])
  ++ (match strOpt p.exclude_dir with
      | some ds =>
        (jsSplitCommas ds).foldl
          (fun acc d =>
            let t := jsTrim d
            if t = "" then acc else acc ++ ["--exclude-dir", t]) []
      | none => [])
  ++ (match strOpt p.pattern with | some pat => ["-e", pat] | none => [])
  ++ ["--"]
  ++ (match strOpt p.query with | some q => [q] | none => [])
  ++ [searchPathOf p ctx]

/-- Strip ANSI color codes (the global replacement of `\x1B\[[0-9;]*m`),
fuel-indexed so the recursion is structural and kernel-reducible; the
fuel only ever decreases at least as fast as the character list, so
`stripAnsi` below never exhausts it. -/
def stripAnsiF : Nat → List Char → List Char
  | 0, cs => cs
  | _ + 1, [] => []
  | fuel + 1, c :: cs =>
    if c = '\x1b' ∧ cs.head? = some '[' then
      let rest := cs.tail
      let run := rest.takeWhile (fun d => d.isDigit || d = ';')
      let after := rest.drop run.length
      if after.head? = some 'm' then stripAnsiF fuel after.tail
      else c :: stripAnsiF fuel cs
    else c :: stripAnsiF fuel cs

/-- Strip ANSI color codes: the global replacement of `\x1B\[[0-9;]*m`. -/
def stripAnsi (cs : List Char) : List Char :=
  stripAnsiF cs.length cs

/-- The range prefix regex `^(.+?):(\d+[-–]\d+)` tail: a nonempty
digit run, an ASCII hyphen or en dash, and a nonempty digit run; returns
the exact characters the second capture group covers. -/
def parseRange (cs : List Char) : Option (List Char) :=
  let d1 := cs.takeWhile Char.isDigit
  if d1.isEmpty then none
  else
    match cs.drop d1.length with
    | c :: rest =>
      if c = '-' || c.toNat = 0x2013 then
        let d2 := rest.takeWhile Char.isDigit
        if d2.isEmpty then none else some (d1 ++ [c] ++ d2)
      else none
    | [] => none

/-- Lazy scan for the range prefix: the shortest nonempty prefix followed
by `:` and a well-formed line range. -/
def rangeSplitAux (acc : List Char) : List Char → Option (String × String)
  | [] => none
  | c :: rest =>
    if c = ':' ∧ ¬acc.isEmpty then
      match parseRange rest with
      | some rng => some (String.mk acc.reverse, String.mk rng)
      | none => rangeSplitAux (c :: acc) rest
    else rangeSplitAux (c :: acc) rest

/-- `line.match(/^(.+?):(\d+[-–]\d+)/)`, returning the two captures. -/
def rangeSplit (l : String) : Option (String × String) :=
  rangeSplitAux [] l.data

/-- `line.match(/^file:\s+(.+)/)`: `file:` followed by at least one
whitespace character and at least one further character; the capture is
everything after the whitespace run (backtracking hands the last
whitespace character to the capture when nothing else remains). -/
def fileHeadCapture (l : String) : Option String :=
  if "file:".data.isPrefixOf l.data then
    let rest := l.data.drop 5
    let ws := rest.takeWhile isJsSpace
    let tl := rest.drop ws.length
    if ¬tl.isEmpty then
      if ws.isEmpty then none else some (String.mk tl)
    else if 2 ≤ ws.length then some (String.mk (ws.drop (ws.length - 1)))
    else none
  else none

/-- The entry (if any) one colgrep output line contributes to the file
list, mirroring the source's three pushes in order. -/
def colLineEntry (filesOnly : Bool) (l : String) : Option String :=
  if jsTrim l = "" then none
  else
    match rangeSplit l with
    | some (pre1, rng) => some (pre1 ++ ":" ++ rng)
    | none =>
      match fileHeadCapture l with
      | some cap => some cap
      | none =>
        if filesOnly && !startsWithStr l " " then some (jsTrim l) else none

/-- The colgrep file-list loop (append-only, no deduplication). -/
def colCollectFiles (filesOnly : Bool) (ls : List String) : List String :=
  ls.foldl
    (fun fs l => match colLineEntry filesOnly l with
      | some e => fs ++ [e]
      | none => fs) []

/-- `f.replace(/:.*$/, "")`: keep the characters before the first colon. -/
def dropFromColon (s : String) : String :=
  String.mk (s.data.takeWhile (fun c => ¬c = ':'))

/-- First-occurrence deduplication (the `Set` insertion order semantics);
only its length is consumed, as the unique-file count. -/
def uniqDedup (ls : List String) : List String :=
  ls.foldl (fun acc x => if acc.contains x then acc else acc ++ [x]) []

/-- The semantic engine's summary header `[ix:<N> m:<M> complete]`; the
indexed count is printed as `?` unless it is positive. -/
def colHeader (n : Int) (m : Nat) : String :=
  "[ix:" ++ (if 0 < n then toString n else "?") ++ " m:" ++ toString m ++ " complete]"

/-- The zero-result success response of the colgrep path. -/
def colZeroResp (p : Params) (n : Int) : Response :=
  { text := colHeader n 0 ++ "\n" ++ "No matches found"
    isError := false
    details := some
      { resultCount := 0, query := p.query, pattern := p.pattern
        engine := some "colgrep", filesSearched := some n, filesMatched := some 0
        searchComplete := some true } }

/-- `execColgrep` from the source; `colEx` is the subprocess oracle. -/
def execColgrep (colEx : List String → ExecResult) (p : Params) (ctx : Ctx) : Response :=
  let result := colEx (buildColArgs p ctx)
  if result.killed then
    { text := "Error: colgrep timed out or was aborted. First-time indexing can take 30-90s."
      isError := true }
  else if result.code ≠ 0 then
    let st := jsTrim (optStr result.stderr)
    { text := "Error: " ++ (if st = "" then "colgrep failed" else st), isError := true }
  else
    let stdoutO := result.stdout.map (fun s => jsTrim (String.mk (stripAnsi s.data)))
    let filesSearched : Int :=
      match scanNum [" files".data] (optStr result.stderr).data with
      | some n => (n : Int)
      | none => -1
    match stdoutO with
    | none => colZeroResp p filesSearched
    | some stdout =>
      if stdout = "" || startsWithStr stdout "No results found" then
        colZeroResp p filesSearched
      else
        let outputLines := jsSplitLines stdout
        let files := colCollectFiles (p.files_only.getD false) outputLines
        let uniqCount := (uniqDedup (files.map dropFromColon)).length
        let nonBlank := outputLines.countP (fun l => jsTrim l ≠ "")
        { text := colHeader filesSearched uniqCount ++ "\n" ++ stdout
          isError := false
          details := some
            { resultCount := if files.isEmpty then nonBlank else files.length
              query := p.query, pattern := p.pattern
              searchPath := some (searchPathOf p ctx), files := some files
              engine := some "colgrep", filesSearched := some filesSearched
              filesMatched := some (uniqCount : Int), searchComplete := some true } }

-- ── fallback policy and router ──────────────────────────────────────────

/-- `isColgrepRecoverable` from the source: the six case-insensitive
trigger phrases. -/
def isColgrepRecoverable (r : Response) : Bool :=
  let t := jsToLower r.text
  containsSub t "rely on grep" ||
  containsSub t "index is currently being built" ||
  containsSub t "no index found" ||
  containsSub t "no files indexed" ||
  containsSub t "enoent" ||
  containsSub t "not found"

/-- `result.details.fallback = true` when a details object is present. -/
def withFallbackFlag (r : Response) : Response :=
  match r.details with
  | some d => { r with details := some { d with fallback := some true } }
  | none => r

/-- The fallback parameter rewrite: keep a truthy `pattern` and drop the
query, otherwise demote the query text to a forced fixed-string pattern. -/
def fallbackParamsOf (p : Params) : Params :=
  if truthyStr p.pattern then { p with query := none }
  else { p with pattern := p.query, fixed_strings := some true, query := none }

/-- `execRipgrepFallback` from the source. -/
def execRipgrepFallback (rgEx : List String → ExecResult) (p : Params) (ctx : Ctx) :
    Response :=
  withFallbackFlag (execRipgrep rgEx (fallbackParamsOf p) ctx)

/-- The router (`execute`): validate, route on `query`, and absorb
recoverable semantic failures through the fallback policy. -/
def execute (colEx rgEx : List String → ExecResult) (p : Params) (ctx : Ctx) : Response :=
  if !truthyStr p.query && !truthyStr p.pattern then
    { text := "Error: at least one of `query` or `pattern` must be provided."
      isError := true }
  else if truthyStr p.query then
    let r := execColgrep colEx p ctx
    if r.isError && isColgrepRecoverable r then execRipgrepFallback rgEx p ctx else r
  else execRipgrep rgEx p ctx

-- ── contention gate ─────────────────────────────────────────────────────

/-- The fixed auto-release delay armed per ticket (`120_000` ms). -/
def autoReleaseMs : Nat := 120000

/-- The observable part of a `tool_call` event: the call identifier, the
tool name, and the two input fields the gate inspects (`inputQuery` is
`some` exactly when `input.query` is a string). -/
structure ToolCallEvent where
  toolCallId : String
  toolName : String
  inputAction : Option String := none
  inputQuery : Option String := none
deriving DecidableEq, Repr

/-- The gating test of the `tool_call` listener: an `lsp` references
lookup, or a `grep` call whose `query` is a string. -/
def isGated (e : ToolCallEvent) : Bool :=
  (e.toolName = "lsp" && e.inputAction = some "references") ||
  (e.toolName = "grep" && e.inputQuery.isSome)

/-- The events the gate reacts to: a call-started notification, a
call-finished notification, and the expiry of an armed auto-release
timer.  Timer scheduling is abstracted: a `timerFire id` event may occur
at any point after the timer was armed and has effect only while the
timer entry is still present. -/
inductive GateEvent where
  | call : ToolCallEvent → GateEvent
  | result : String → GateEvent
  | timerFire : String → GateEvent
deriving DecidableEq, Repr

/-- Gate bookkeeping: the pending release callbacks (`releases` map keys),
the armed timers (`timers` map keys), and a log of every release-callback
invocation, in order (`fired`). -/
structure GateState where
  releases : List String := []
  timers : List String := []
  fired : List String := []
deriving DecidableEq, Repr

/-- Key insertion with map semantics (`Map.set`): idempotent on presence. -/
def insertId (id : String) (l : List String) : List String :=
  if l.contains id then l else id :: l

/-- `tool_result`'s first half: `clearTimeout` + `timers.delete` when a
timer entry exists. -/
def gateClearTimer (s : GateState) (id : String) : GateState :=
  if s.timers.contains id then { s with timers := s.timers.erase id } else s

/-- The release firing common to `tool_result` and the timer callback:
`releases.get` / `releases.delete` / invoke, a no-op when the ticket is
already absent. -/
def gateRelease (s : GateState) (id : String) : GateState :=
  if s.releases.contains id then
    { s with releases := s.releases.erase id, fired := s.fired ++ [id] }
  else s

/-- One step of the gate listeners.  `tool_call` (when gated) stores the
release callback and arms the timer; `tool_result` clears the timer and
fires any pending release; a timer expiry (which can only occur while the
timer entry is still armed) fires the pending release while leaving its
own spent timer entry in place, exactly as the source's timer callback
only touches `releases`. -/
def gateStep (s : GateState) : GateEvent → GateState
  | GateEvent.call ev =>
    if isGated ev then
      { s with releases := insertId ev.toolCallId s.releases
               timers := insertId ev.toolCallId s.timers }
    else s
  | GateEvent.result id => gateRelease (gateClearTimer s id) id
  | GateEvent.timerFire id =>
    if s.timers.contains id then gateRelease s id else s

/-- Run the two listeners over an event trace from the initial (empty)
module state. -/
def runGate (es : List GateEvent) : GateState :=
  es.foldl gateStep {}

/-- Number of gated call-started events carrying this call identifier. -/
def countGatedCalls (id : String) (es : List GateEvent) : Nat :=
  es.countP (fun e =>
    match e with
    | GateEvent.call ev => isGated ev && ev.toolCallId = id
    | _ => false)

example :
    (runGate
      [GateEvent.call { toolCallId := "t1", toolName := "grep", inputQuery := some "q" },
       GateEvent.timerFire "t1", GateEvent.result "t1", GateEvent.result "t1"]).fired
      = ["t1"] := by decide
example :
    (runGate
      [GateEvent.call { toolCallId := "t1", toolName := "grep", inputQuery := some "q" },
       GateEvent.result "t1", GateEvent.timerFire "t1"]).fired = ["t1"] := by decide
example :
    (runGate
      [GateEvent.call { toolCallId := "t1", toolName := "grep" },
       GateEvent.result "t1"]).fired = [] := by decide

-- ── supporting lemmas ───────────────────────────────────────────────────

/-- A matched line also matches the broader `^\d+[:\-]` test. -/
theorem isMatchLine_isNumPrefixed {l : String} (h : isMatchLine l = true) :
    isNumPrefixed l = true := by
  simp only [isMatchLine, Bool.and_eq_true, decide_eq_true_eq] at h
  simp only [isNumPrefixed, Bool.and_eq_true, Bool.or_eq_true, decide_eq_true_eq]
  exact ⟨h.1, Or.inl h.2⟩

/-- A heading line is never a matched line. -/
theorem isHeadingLine_not_isMatchLine {l : String} (h : isHeadingLine l = true) :
    isMatchLine l = false := by
  rcases hm : isMatchLine l with _ | _
  · rfl
  · exfalso
    have hp := isMatchLine_isNumPrefixed hm
    simp only [isHeadingLine, Bool.and_eq_true, Bool.not_eq_true'] at h
    simp [h.1.1.2] at hp

/-- The empty string is not a matched line. -/
theorem isMatchLine_empty : isMatchLine "" = false := by decide

/-- The empty string is not a heading line. -/
theorem isHeadingLine_empty : isHeadingLine "" = false := by decide

/-- Every heading line in the block is immediately followed by a matched
line (so no suppressed match's heading survives on its own). -/
def headingsCovered : List String → Bool
  | [] => true
  | l :: ls =>
    if isHeadingLine l then
      (match ls with | [] => false | m :: _ => isMatchLine m) && headingsCovered ls
    else headingsCovered ls

/-- Matched-line count through the offset loop: exactly `off − skipped`
further matches are suppressed (saturating). -/
theorem offsetGo_count (off : Nat) (ls : List String) :
    ∀ (skipped : Nat) (cur : String), isMatchLine cur = false →
      countMatchLines (offsetGo off ls skipped cur) =
        countMatchLines ls - (off - skipped) := by
  induction ls with
  | nil => intro skipped cur _; simp [offsetGo, countMatchLines]
  | cons l ls ih =>
    intro skipped cur hcur
    simp only [countMatchLines] at ih ⊢
    rcases hh : isHeadingLine l with _ | _
    · rcases hm : isMatchLine l with _ | _
      · simp only [offsetGo, hh, hm, Bool.false_eq_true, if_false, List.countP_cons]
        rw [ih skipped cur hcur]
        simp [hm]
      · by_cases hs : skipped < off
        · simp only [offsetGo, hh, hm, hs, Bool.false_eq_true, if_false, if_true,
            List.countP_cons]
          rw [ih (skipped + 1) cur hcur]
          omega
        · have hoff : off ≤ skipped := Nat.le_of_not_lt hs
          by_cases hc : cur = ""
          · simp only [offsetGo, hh, hm, hs, hc, Bool.false_eq_true, if_false,
              if_true, ne_eq, not_true_eq_false, List.countP_cons]
            rw [ih skipped "" isMatchLine_empty]
            omega
          · simp only [offsetGo, hh, hm, hs, hc, Bool.false_eq_true, if_false,
              if_true, ne_eq, not_false_eq_true, List.countP_cons]
            rw [ih skipped "" isMatchLine_empty]
            simp [hm, hcur]
            omega
    · have hlm := isHeadingLine_not_isMatchLine hh
      simp only [offsetGo, hh, if_true, List.countP_cons]
      rw [ih skipped l hlm]
      simp [hlm]

/-- Coverage through the offset loop: a heading reaches the output only
immediately before a kept matched line. -/
theorem offsetGo_covered (off : Nat) (ls : List String) :
    ∀ (skipped : Nat) (cur : String), (cur = "" ∨ isHeadingLine cur = true) →
      headingsCovered (offsetGo off ls skipped cur) = true := by
  induction ls with
  | nil => intro _ _ _; simp [offsetGo, headingsCovered]
  | cons l ls ih =>
    intro skipped cur hcur
    rcases hh : isHeadingLine l with _ | _
    · rcases hm : isMatchLine l with _ | _
      · simp only [offsetGo, hh, hm, Bool.false_eq_true, if_false]
        simp only [headingsCovered, hh, Bool.false_eq_true, if_false]
        exact ih skipped cur hcur
      · by_cases hs : skipped < off
        · simp only [offsetGo, hh, hm, hs, Bool.false_eq_true, if_false, if_true]
          exact ih (skipped + 1) cur hcur
        · by_cases hc : cur = ""
          · simp only [offsetGo, hh, hm, hs, hc, Bool.false_eq_true, if_false,
              if_true, ne_eq, not_true_eq_false]
            simp only [headingsCovered, hh, Bool.false_eq_true, if_false]
            exact ih skipped "" (Or.inl rfl)
          · have hch : isHeadingLine cur = true := by
              rcases hcur with h | h
              · exact absurd h hc
              · exact h
            simp only [offsetGo, hh, hm, hs, hc, Bool.false_eq_true, if_false,
              if_true, ne_eq, not_false_eq_true]
            simp only [headingsCovered, hch, hh, hm, Bool.false_eq_true, if_false,
              if_true, Bool.true_and]
            exact ih skipped "" (Or.inl rfl)
    · simp only [offsetGo, hh, if_true]
      exact ih skipped l (Or.inr hh)

/-- When every remaining match is still due for suppression, the loop
emits no heading lines at all. -/
theorem offsetGo_no_heading (off : Nat) (ls : List String) :
    ∀ (skipped : Nat) (cur : String),
      countMatchLines ls ≤ off - skipped →
      (offsetGo off ls skipped cur).countP (fun x => isHeadingLine x) = 0 := by
  induction ls with
  | nil => intro _ _ _; simp [offsetGo]
  | cons l ls ih =>
    intro skipped cur hle
    simp only [countMatchLines, List.countP_cons] at hle
    rcases hh : isHeadingLine l with _ | _
    · rcases hm : isMatchLine l with _ | _
      · have hle' : countMatchLines ls ≤ off - skipped := by
          simp only [hm] at hle
          simpa [countMatchLines] using hle
        simp only [offsetGo, hh, hm, Bool.false_eq_true, if_false, List.countP_cons]
        rw [ih skipped cur hle']
      · have h1 : countMatchLines ls + 1 ≤ off - skipped := by
          simp only [hm, if_true] at hle
          simpa [countMatchLines] using hle
        have hs : skipped < off := by omega
        simp only [offsetGo, hh, hm, hs, Bool.false_eq_true, if_false, if_true]
        exact ih (skipped + 1) cur (by omega)
    · have hlm := isHeadingLine_not_isMatchLine hh
      have hle' : countMatchLines ls ≤ off - skipped := by
        simp only [hlm] at hle
        simpa [countMatchLines] using hle
      simp only [offsetGo, hh, if_true]
      exact ih skipped l hle'

/-- The ripgrep file-list fold keeps the accumulator duplicate-free. -/
theorem collectRgGo_nodup (ls : List String) :
    ∀ acc : List String, acc.Nodup →
      (ls.foldl
        (fun fs l => if isHeadingLine l && !fs.contains l then fs ++ [l] else fs)
        acc).Nodup := by
  induction ls with
  | nil => intro acc h; simpa using h
  | cons l ls ih =>
    intro acc h
    simp only [List.foldl_cons]
    by_cases hc : (isHeadingLine l && !acc.contains l) = true
    · simp only [hc, if_true]
      apply ih
      have hnm : l ∉ acc := by
        have := (Bool.and_eq_true _ _).mp hc
        simpa using this.2
      simp [List.nodup_append, h, hnm]
    · simp only [hc, if_false]
      exact ih acc h

/-- The ripgrep file-list fold yields a sublist of the heading lines
prefixed by the accumulator: relative order is order of appearance. -/
theorem collectRgGo_sublist (ls : List String) :
    ∀ acc : List String,
      (ls.foldl
        (fun fs l => if isHeadingLine l && !fs.contains l then fs ++ [l] else fs)
        acc).Sublist (acc ++ ls.filter (fun l => isHeadingLine l)) := by
  induction ls with
  | nil => intro acc; simp
  | cons l ls ih =>
    intro acc
    simp only [List.foldl_cons, List.filter_cons]
    rcases hh : isHeadingLine l with _ | _
    · simpa [hh] using ih acc
    · by_cases hm : acc.contains l = true
      · simp only [hh, hm, Bool.not_true, Bool.and_false, Bool.false_eq_true,
          if_false, if_true]
        refine (ih acc).trans ?_
        exact List.Sublist.append_left (List.sublist_cons_self l _) acc
      · have hm' : acc.contains l = false := by simpa using hm
        simp only [hh, Bool.true_and, hm', Bool.not_false, if_true]
        have := ih (acc ++ [l])
        simpa [List.append_assoc] using this

/-- Membership in the ripgrep file-list fold: exactly the accumulator plus
every heading line of the block. -/
theorem collectRgGo_mem (ls : List String) :
    ∀ (acc : List String) (x : String),
      x ∈ (ls.foldl
        (fun fs l => if isHeadingLine l && !fs.contains l then fs ++ [l] else fs)
        acc) ↔ (x ∈ acc ∨ x ∈ ls.filter (fun l => isHeadingLine l)) := by
  induction ls with
  | nil => intro acc x; simp
  | cons l ls ih =>
    intro acc x
    simp only [List.foldl_cons, List.filter_cons]
    rcases hh : isHeadingLine l with _ | _
    · simpa [hh] using ih acc x
    · by_cases hm : acc.contains l = true
      · simp only [hh, hm, Bool.not_true, Bool.and_false, Bool.false_eq_true,
          if_false, if_true]
        rw [ih acc x]
        have hla : l ∈ acc := by simpa using hm
        constructor
        · rintro (h | h)
          · exact Or.inl h
          · exact Or.inr (List.mem_cons_of_mem _ h)
        · rintro (h | h)
          · exact Or.inl h
          · rcases List.mem_cons.mp h with rfl | h
            · exact Or.inl hla
            · exact Or.inr h
      · have hm' : acc.contains l = false := by simpa using hm
        simp only [hh, Bool.true_and, hm', Bool.not_false, if_true]
        rw [ih (acc ++ [l]) x]
        simp [List.mem_append, or_assoc, or_comm, or_left_comm]

/-- The colgrep file-list loop is the in-order concatenation of each
line's contribution: duplicates are preserved. -/
theorem colCollectGo_eq_filterMap (fo : Bool) (ls : List String) :
    ∀ acc : List String,
      ls.foldl
        (fun fs l => match colLineEntry fo l with | some e => fs ++ [e] | none => fs)
        acc = acc ++ ls.filterMap (colLineEntry fo) := by
  induction ls with
  | nil => intro acc; simp
  | cons l ls ih =>
    intro acc
    simp only [List.foldl_cons, List.filterMap_cons]
    cases h : colLineEntry fo l with
    | none => simp only [h]; exact ih acc
    | some e =>
      simp only [h]
      rw [ih (acc ++ [e])]
      simp

/-- Every outcome of the post-exec processing is a success response whose
text is a header followed by one newline and a body, and whose details
carry the header's two counts and no fallback mark. -/
theorem rgProcess_success (p : Params) (ctx : Ctx) (code : Int) (raw : String) :
    ∃ n m body d,
      rgProcess p ctx code raw =
        { text := rgHeader n m ++ "\n" ++ body, isError := false, details := some d } ∧
      d.fallback = none ∧ d.filesSearched = some n ∧ d.filesMatched = some m := by
  unfold rgProcess
  dsimp only
  split
  · exact ⟨_, 0, "No matches found", _, rfl, rfl, rfl, rfl⟩
  · split
    · split
      · exact ⟨_, 0, "No matches found", _, rfl, rfl, rfl, rfl⟩
      · exact ⟨_, _, _, _, rfl, rfl, rfl, rfl⟩
    · exact ⟨_, _, _, _, rfl, rfl, rfl, rfl⟩

/-- The shared tail either fails with no details object or hands back the
post-exec processing of the run's exit code and stdout. -/
theorem rgAfterExec_shape (p : Params) (ctx : Ctx) (r : ExecResult) :
    ((rgAfterExec p ctx r).isError = true ∧ (rgAfterExec p ctx r).details = none) ∨
    ∃ code raw, rgAfterExec p ctx r = rgProcess p ctx code raw := by
  unfold rgAfterExec
  split
  · left; exact ⟨rfl, rfl⟩
  · split
    · left; exact ⟨rfl, rfl⟩
    · right; exact ⟨_, _, rfl⟩

/-- `execRipgrep` always returns the shared tail of some run. -/
theorem execRipgrep_eq_after (ex : List String → ExecResult) (p : Params) (ctx : Ctx) :
    ∃ r, execRipgrep ex p ctx = rgAfterExec p ctx r := by
  unfold execRipgrep execRipgrepT
  dsimp only
  split
  · split
    · exact ⟨_, rfl⟩
    · exact ⟨_, rfl⟩
  · exact ⟨_, rfl⟩

/-- `execRipgrep` either fails with no details object or hands back the
post-exec processing of some exit code and stdout. -/
theorem execRipgrep_shape (ex : List String → ExecResult) (p : Params) (ctx : Ctx) :
    ((execRipgrep ex p ctx).isError = true ∧ (execRipgrep ex p ctx).details = none) ∨
    ∃ code raw, execRipgrep ex p ctx = rgProcess p ctx code raw := by
  obtain ⟨r, hr⟩ := execRipgrep_eq_after ex p ctx
  rw [hr]
  exact rgAfterExec_shape p ctx r

/-- Every outcome of `execColgrep` is an error with no details object, or
a success whose text is a header followed by one newline and a body and
whose details carry the counts and no fallback mark. -/
theorem execColgrep_shape (colEx : List String → ExecResult) (p : Params) (ctx : Ctx) :
    ((execColgrep colEx p ctx).isError = true ∧ (execColgrep colEx p ctx).details = none) ∨
    ∃ n m body d,
      execColgrep colEx p ctx =
        { text := colHeader n m ++ "\n" ++ body, isError := false, details := some d } ∧
      d.fallback = none ∧ d.filesSearched = some n ∧ d.filesMatched = some (m : Int) := by
  unfold execColgrep
  dsimp only
  split
  · left; exact ⟨rfl, rfl⟩
  · split
    · left; exact ⟨rfl, rfl⟩
    · split
      · right; exact ⟨_, 0, "No matches found", _, rfl, rfl, rfl, rfl⟩
      · split
        · right; exact ⟨_, 0, "No matches found", _, rfl, rfl, rfl, rfl⟩
        · right; exact ⟨_, _, _, _, rfl, rfl, rfl, rfl⟩

/-- Setting the fallback mark never changes the error flag or the text. -/
theorem withFallbackFlag_isError (r : Response) :
    (withFallbackFlag r).isError = r.isError := by
  unfold withFallbackFlag
  split <;> rfl

/-- A details object surviving `withFallbackFlag` carries the mark. -/
theorem withFallbackFlag_details (r : Response) (d : GrepDetails)
    (h : (withFallbackFlag r).details = some d) : d.fallback = some true := by
  unfold withFallbackFlag at h
  split at h
  · simp only [Option.some.injEq] at h
    subst h
    rfl
  · next hn =>
    rw [hn] at h
    exact absurd h (by simp)

/-- `withFallbackFlag` keeps an absent details object absent. -/
theorem withFallbackFlag_none (r : Response) (h : r.details = none) :
    withFallbackFlag r = r := by
  unfold withFallbackFlag
  split
  · next d hd => rw [h] at hd; exact absurd hd (by simp)
  · rfl

/-- With the query present, the router's behaviour is exactly: run
colgrep, then fall back iff the failure is recoverable. -/
theorem execute_query_route (colEx rgEx : List String → ExecResult) (p : Params)
    (ctx : Ctx) (hq : truthyStr p.query = true) :
    execute colEx rgEx p ctx =
      (if (execColgrep colEx p ctx).isError && isColgrepRecoverable (execColgrep colEx p ctx)
       then execRipgrepFallback rgEx p ctx
       else execColgrep colEx p ctx) := by
  unfold execute
  simp [hq]

/-- A ripgrep details object never carries the fallback mark. -/
theorem execRipgrep_no_fallback_mark (ex : List String → ExecResult) (p : Params)
    (ctx : Ctx) (d : GrepDetails) (h : (execRipgrep ex p ctx).details = some d) :
    d.fallback = none := by
  rcases execRipgrep_shape ex p ctx with ⟨_, hnone⟩ | ⟨code, raw, heq⟩
  · rw [hnone] at h; exact absurd h (by simp)
  · obtain ⟨n, m, body, d', hresp, hfb, _, _⟩ := rgProcess_success p ctx code raw
    rw [heq, hresp] at h
    simp only [Option.some.injEq] at h
    subst h
    exact hfb

/-- A colgrep details object never carries the fallback mark. -/
theorem execColgrep_no_fallback_mark (colEx : List String → ExecResult) (p : Params)
    (ctx : Ctx) (d : GrepDetails) (h : (execColgrep colEx p ctx).details = some d) :
    d.fallback = none := by
  rcases execColgrep_shape colEx p ctx with ⟨_, hnone⟩ | ⟨n, m, body, d', hresp, hfb, _, _⟩
  · rw [hnone] at h; exact absurd h (by simp)
  · rw [hresp] at h
    simp only [Option.some.injEq] at h
    subst h
    exact hfb

/-- A failing ripgrep response carries no details object. -/
theorem execRipgrep_error_no_details (ex : List String → ExecResult) (p : Params)
    (ctx : Ctx) (h : (execRipgrep ex p ctx).isError = true) :
    (execRipgrep ex p ctx).details = none := by
  rcases execRipgrep_shape ex p ctx with ⟨_, hnone⟩ | ⟨code, raw, heq⟩
  · exact hnone
  · obtain ⟨n, m, body, d', hresp, _, _, _⟩ := rgProcess_success p ctx code raw
    rw [heq, hresp] at h
    exact absurd h (by simp)

/-- A router response marked as having used the fallback came from the
fallback path. -/
theorem execute_fallback_flag_eq (colEx rgEx : List String → ExecResult) (p : Params)
    (ctx : Ctx) (d : GrepDetails) (h : (execute colEx rgEx p ctx).details = some d)
    (ht : d.fallback = some true) :
    execute colEx rgEx p ctx = execRipgrepFallback rgEx p ctx := by
  by_cases h1 : (!truthyStr p.query && !truthyStr p.pattern) = true
  · unfold execute at h
    rw [if_pos h1] at h
    exact absurd h (by simp)
  · by_cases h2 : truthyStr p.query = true
    · rw [execute_query_route colEx rgEx p ctx h2] at h ⊢
      by_cases h3 : ((execColgrep colEx p ctx).isError &&
          isColgrepRecoverable (execColgrep colEx p ctx)) = true
      · rw [if_pos h3]
      · rw [if_neg h3] at h
        rw [execColgrep_no_fallback_mark colEx p ctx d h] at ht
        exact absurd ht (by simp)
    · unfold execute at h ⊢
      rw [if_neg h1, if_neg h2] at h ⊢
      rw [execRipgrep_no_fallback_mark rgEx p ctx d h] at ht
      exact absurd ht (by simp)

-- ── claim theorems ──────────────────────────────────────────────────────

/-- C9: the glob splitter splits its input on commas outside brace
groups, keeping brace-expansion groups atomic — `"*.{ts,js},*.md"` splits
into exactly `["*.{ts,js}", "*.md"]`, and the lone `"*.{a,b}"` splits
into the single element `["*.{a,b}"]`, not two. -/
theorem c9_glob_splitting :
    splitGlobs "*.{ts,js},*.md" = ["*.{ts,js}", "*.md"] ∧
    splitGlobs "*.{a,b}" = ["*.{a,b}"] := by
  exact ⟨by decide, by decide⟩

/-- C7 counterexample: with `multiline` explicitly `false` and a pattern
containing a literal newline, the invocation does *not* enable multiline
mode, although the claim ("flag set OR pattern contains a newline")
requires it — the nullish-coalescing `??` lets an explicit `false`
override the auto-detection. -/
theorem c7_counterexample :
    patternHasNewline { pattern := some "a\nb", multiline := some false } = true ∧
    effectiveMultiline { pattern := some "a\nb", multiline := some false } = false ∧
    ¬ ("--multiline" ∈
        buildRgArgs { pattern := some "a\nb", multiline := some false } ⟨"/repo"⟩) := by
  exact ⟨by decide, by decide, by decide⟩

/-- C7 (amended): multiline mode is enabled exactly when the multiline
flag is explicitly `true`, or the flag is absent and the pattern contains
a literal or escaped newline (auto-detection); an explicit `false`
disables it even for newline patterns.  When enabled, `--multiline` is
part of the built invocation. -/
theorem c7_multiline (p : Params) (ctx : Ctx) :
    (effectiveMultiline p = true ↔
      (p.multiline = some true ∨ (p.multiline = none ∧ patternHasNewline p = true))) ∧
    (effectiveMultiline p = true → "--multiline" ∈ buildRgArgs p ctx) := by
  constructor
  · cases h : p.multiline with
    | none => simp [effectiveMultiline, h]
    | some b => cases b <;> simp [effectiveMultiline, h]
  · intro h
    simp [buildRgArgs, h, List.mem_append]

/-- C7 witness: a pattern with an escaped newline and no explicit flag
auto-enables multiline mode. -/
theorem c7_multiline_witness :
    effectiveMultiline { pattern := some "a\\nb" } = true ∧
    "--multiline" ∈ buildRgArgs { pattern := some "a\\nb" } ⟨"/repo"⟩ :=
  ⟨by decide, (c7_multiline { pattern := some "a\\nb" } ⟨"/repo"⟩).2 (by decide)⟩

/-- C1: the fallback policy re-runs ripgrep with the original `pattern`
and the query removed when a pattern was supplied, and otherwise with the
query text as a forced fixed-string pattern; in both branches a surviving
details object is marked `fallback = true`, and no other code path
(ripgrep itself, colgrep, or the router around them) ever sets that mark. -/
theorem c1_fallback_policy (rgEx colEx ex : List String → ExecResult) (p : Params)
    (ctx : Ctx) :
    (truthyStr p.pattern = true →
      execRipgrepFallback rgEx p ctx =
        withFallbackFlag (execRipgrep rgEx { p with query := none } ctx)) ∧
    (truthyStr p.pattern = false →
      execRipgrepFallback rgEx p ctx =
        withFallbackFlag (execRipgrep rgEx
          { p with pattern := p.query, fixed_strings := some true, query := none } ctx)) ∧
    (∀ d, (execRipgrepFallback rgEx p ctx).details = some d → d.fallback = some true) ∧
    (∀ d, (execRipgrep ex p ctx).details = some d → d.fallback = none) ∧
    (∀ d, (execColgrep colEx p ctx).details = some d → d.fallback = none) ∧
    (∀ d, (execute colEx rgEx p ctx).details = some d → d.fallback = some true →
      execute colEx rgEx p ctx = execRipgrepFallback rgEx p ctx) := by
  refine ⟨?_, ?_, ?_, execRipgrep_no_fallback_mark ex p ctx,
    execColgrep_no_fallback_mark colEx p ctx, execute_fallback_flag_eq colEx rgEx p ctx⟩
  · intro h
    unfold execRipgrepFallback fallbackParamsOf
    rw [if_pos h]
  · intro h
    unfold execRipgrepFallback fallbackParamsOf
    rw [if_neg (by simp [h])]
  · intro d h
    exact withFallbackFlag_details _ d h

/-- C1 witness: a pattern-less request falls back with the query demoted
to a fixed-string pattern. -/
theorem c1_fallback_policy_witness :
    truthyStr ({ query := some "find config" } : Params).pattern = false ∧
    execRipgrepFallback (fun _ => { code := 1, stdout := some "", stderr := some "" })
        { query := some "find config" } ⟨"/repo"⟩ =
      withFallbackFlag (execRipgrep (fun _ => { code := 1, stdout := some "", stderr := some "" })
        { query := none, pattern := some "find config", fixed_strings := some true } ⟨"/repo"⟩) :=
  ⟨by decide,
   (c1_fallback_policy (fun _ => { code := 1, stdout := some "", stderr := some "" })
      (fun _ => { code := 1, stdout := some "", stderr := some "" })
      (fun _ => { code := 1, stdout := some "", stderr := some "" })
      { query := some "find config" } ⟨"/repo"⟩).2.1 (by decide)⟩

/-- C10: when the fallback's ripgrep run itself fails (timeout/abort or
fatal exit status 2), the error response carries no details object, so
the fallback mark is absent from it; consequently any response whose
details carry `fallback = true` is a non-error response. -/
theorem c10_fallback_error_bare (rgEx colEx ex : List String → ExecResult)
    (p : Params) (ctx : Ctx) :
    ((execRipgrepFallback rgEx p ctx).isError = true →
      (execRipgrepFallback rgEx p ctx).details = none) ∧
    ((execRipgrep ex p ctx).isError = true → (execRipgrep ex p ctx).details = none) ∧
    (∀ d, (execute colEx rgEx p ctx).details = some d → d.fallback = some true →
      (execute colEx rgEx p ctx).isError = false) := by
  have hfb : (execRipgrepFallback rgEx p ctx).isError = true →
      (execRipgrepFallback rgEx p ctx).details = none := by
    intro h
    unfold execRipgrepFallback at h ⊢
    rw [withFallbackFlag_isError] at h
    rw [withFallbackFlag_none _ (execRipgrep_error_no_details rgEx (fallbackParamsOf p) ctx h)]
    exact execRipgrep_error_no_details rgEx (fallbackParamsOf p) ctx h
  refine ⟨hfb, execRipgrep_error_no_details ex p ctx, ?_⟩
  intro d h ht
  have heqf : execute colEx rgEx p ctx = execRipgrepFallback rgEx p ctx :=
    execute_fallback_flag_eq colEx rgEx p ctx d h ht
  rw [heqf] at h ⊢
  rcases hE : (execRipgrepFallback rgEx p ctx).isError with _ | _
  · rfl
  · rw [hfb hE] at h
    exact absurd h (by simp)

/-- C10 witness: a fallback whose ripgrep run exits fatally (status 2)
yields an error response with no details object. -/
theorem c10_fallback_error_bare_witness :
    (execRipgrepFallback (fun _ => { code := 2, stdout := some "", stderr := some "bad regex" })
        { query := some "q" } ⟨"/repo"⟩).isError = true ∧
    (execRipgrepFallback (fun _ => { code := 2, stdout := some "", stderr := some "bad regex" })
        { query := some "q" } ⟨"/repo"⟩).details = none :=
  ⟨by decide,
   (c10_fallback_error_bare (fun _ => { code := 2, stdout := some "", stderr := some "bad regex" })
      (fun _ => { code := 0, stdout := some "", stderr := some "" })
      (fun _ => { code := 0, stdout := some "", stderr := some "" })
      { query := some "q" } ⟨"/repo"⟩).1 (by decide)⟩

/-- C2: a colgrep failure is classified recoverable exactly when its
lowercased message contains one of the six trigger phrases — the engine's
advice to rely on grep, the index being built, a missing index, no files
indexed, a missing binary (`ENOENT`), or "not found"; the router absorbs
recoverable failures through the fallback policy and surfaces every other
colgrep result (fatal failure or success) to the caller as-is. -/
theorem c2_recoverable_classification (colEx rgEx : List String → ExecResult)
    (r : Response) (p : Params) (ctx : Ctx) (hq : truthyStr p.query = true) :
    (isColgrepRecoverable r = true ↔
      (containsSub (jsToLower r.text) "rely on grep" = true ∨
       containsSub (jsToLower r.text) "index is currently being built" = true ∨
       containsSub (jsToLower r.text) "no index found" = true ∨
       containsSub (jsToLower r.text) "no files indexed" = true ∨
       containsSub (jsToLower r.text) "enoent" = true ∨
       containsSub (jsToLower r.text) "not found" = true)) ∧
    ((execColgrep colEx p ctx).isError = true →
      isColgrepRecoverable (execColgrep colEx p ctx) = true →
      execute colEx rgEx p ctx = execRipgrepFallback rgEx p ctx) ∧
    ((execColgrep colEx p ctx).isError = true →
      isColgrepRecoverable (execColgrep colEx p ctx) = false →
      execute colEx rgEx p ctx = execColgrep colEx p ctx) ∧
    ((execColgrep colEx p ctx).isError = false →
      execute colEx rgEx p ctx = execColgrep colEx p ctx) := by
  refine ⟨?_, ?_, ?_, ?_⟩
  · unfold isColgrepRecoverable
    simp [Bool.or_eq_true, or_assoc]
  · intro he hr
    rw [execute_query_route colEx rgEx p ctx hq, if_pos (by rw [he, hr]; rfl)]
  · intro he hr
    rw [execute_query_route colEx rgEx p ctx hq, if_neg (by rw [he, hr]; simp)]
  · intro he
    rw [execute_query_route colEx rgEx p ctx hq, if_neg (by rw [he]; simp)]

/-- C2 witness: a "no index found" failure is recoverable and routed to
the fallback; appending noise to a fatal message keeps it fatal. -/
theorem c2_recoverable_classification_witness :
    truthyStr ({ query := some "parse configuration files" } : Params).query = true ∧
    (execColgrep (fun _ => { code := 1, stdout := some "", stderr := some "No index found. Run colgrep --index first." })
        { query := some "parse configuration files" } ⟨"/repo"⟩).isError = true ∧
    isColgrepRecoverable (execColgrep
        (fun _ => { code := 1, stdout := some "", stderr := some "No index found. Run colgrep --index first." })
        { query := some "parse configuration files" } ⟨"/repo"⟩) = true ∧
    execute (fun _ => { code := 1, stdout := some "", stderr := some "No index found. Run colgrep --index first." })
        (fun _ => { code := 1, stdout := some "", stderr := some "" })
        { query := some "parse configuration files" } ⟨"/repo"⟩ =
      execRipgrepFallback (fun _ => { code := 1, stdout := some "", stderr := some "" })
        { query := some "parse configuration files" } ⟨"/repo"⟩ :=
  ⟨by decide, by decide, by decide,
   (c2_recoverable_classification
      (fun _ => { code := 1, stdout := some "", stderr := some "No index found. Run colgrep --index first." })
      (fun _ => { code := 1, stdout := some "", stderr := some "" })
      { text := "", isError := false }
      { query := some "parse configuration files" } ⟨"/repo"⟩ (by decide)).2.1
      (by decide) (by decide)⟩

/-- Oracle whose first run reports a PCRE-mode requirement without the
literal token `pcre2` anywhere in the diagnostic. -/
def c3Oracle : List String → ExecResult := fun _ =>
  { code := 2, stdout := some ""
    stderr := some "regex parse error: PCRE is required for look-behind" }

/-- C3 counterexample: the first run exits with the parse-error status,
fixed-string mode was not requested, and the error text mentions PCRE —
yet only one invocation happens (no retry), because the source matches
the narrower token `pcre2`, not `pcre`. -/
theorem c3_counterexample :
    (c3Oracle (buildRgArgs { pattern := some "(?<=x)y" } ⟨"/repo"⟩)).code = 2 ∧
    ({ pattern := some "(?<=x)y" } : Params).fixed_strings.getD false = false ∧
    containsSub
      (jsToLower (optStr (c3Oracle (buildRgArgs { pattern := some "(?<=x)y" } ⟨"/repo"⟩)).stderr))
      "pcre" = true ∧
    (execRipgrepT c3Oracle { pattern := some "(?<=x)y" } ⟨"/repo"⟩).2 =
      [buildRgArgs { pattern := some "(?<=x)y" } ⟨"/repo"⟩] := by
  exact ⟨by decide, by decide, by decide, by decide⟩

/-- C3 (amended): when a run exits with the parse-error status (2),
fixed-string mode was not requested, and the error text mentions
look-around, backreference, or **PCRE2**, exactly one retry is issued
with `-P` prepended to the same argument list; the response is that of
the retried run, and a retry that also exits with status 2 is surfaced
as a fatal error with no further attempt. -/
theorem c3_pcre_retry (ex : List String → ExecResult) (p : Params) (ctx : Ctx)
    (h2 : (ex (buildRgArgs p ctx)).code = 2)
    (hf : p.fixed_strings.getD false = false)
    (ht : containsSub (jsToLower (optStr (ex (buildRgArgs p ctx)).stderr)) "look-around" = true
        ∨ containsSub (jsToLower (optStr (ex (buildRgArgs p ctx)).stderr)) "backreference" = true
        ∨ containsSub (jsToLower (optStr (ex (buildRgArgs p ctx)).stderr)) "pcre2" = true) :
    (execRipgrepT ex p ctx).2 = [buildRgArgs p ctx, "-P" :: buildRgArgs p ctx] ∧
    (execRipgrepT ex p ctx).1 = rgAfterExec p ctx (ex ("-P" :: buildRgArgs p ctx)) ∧
    ((ex ("-P" :: buildRgArgs p ctx)).code = 2 →
      (execRipgrepT ex p ctx).1.isError = true) := by
  have hstep : execRipgrepT ex p ctx =
      (rgAfterExec p ctx (ex ("-P" :: buildRgArgs p ctx)),
       [buildRgArgs p ctx, "-P" :: buildRgArgs p ctx]) := by
    unfold execRipgrepT
    dsimp only
    rw [if_pos (by simp [h2, hf]), if_pos (by rcases ht with h | h | h <;> simp [h])]
  refine ⟨by rw [hstep], by rw [hstep], ?_⟩
  intro hc2
  rw [hstep]
  by_cases hk : (ex ("-P" :: buildRgArgs p ctx)).killed = true
  · simp [rgAfterExec, hk]
  · simp [rgAfterExec, hk, hc2]

/-- Oracle that fails with a backreference diagnostic until `-P` is
supplied. -/
def c3RetryOracle : List String → ExecResult := fun args =>
  if args.contains "-P" then { code := 0, stdout := some "ok", stderr := some "" }
  else { code := 2, stdout := some ""
         stderr := some "regex parse error: backreferences are not supported" }

/-- Oracle that fails with a backreference diagnostic on every run. -/
def c3FailOracle : List String → ExecResult := fun _ =>
  { code := 2, stdout := some ""
    stderr := some "regex parse error: backreferences are not supported" }

/-- C3 witness: a backreference failure retries exactly once with `-P`
prepended, and a retry that fails again with status 2 yields a fatal
error. -/
theorem c3_pcre_retry_witness :
    (execRipgrepT c3RetryOracle { pattern := some "(a)\\1" } ⟨"/repo"⟩).2 =
      [buildRgArgs { pattern := some "(a)\\1" } ⟨"/repo"⟩,
       "-P" :: buildRgArgs { pattern := some "(a)\\1" } ⟨"/repo"⟩] ∧
    (execRipgrepT c3FailOracle { pattern := some "(a)\\1" } ⟨"/repo"⟩).1.isError = true ∧
    (execRipgrepT c3FailOracle { pattern := some "(a)\\1" } ⟨"/repo"⟩).2 =
      [buildRgArgs { pattern := some "(a)\\1" } ⟨"/repo"⟩,
       "-P" :: buildRgArgs { pattern := some "(a)\\1" } ⟨"/repo"⟩] :=
  ⟨(c3_pcre_retry c3RetryOracle { pattern := some "(a)\\1" } ⟨"/repo"⟩
      (by decide) (by decide) (Or.inr (Or.inl (by decide)))).1,
   (c3_pcre_retry c3FailOracle { pattern := some "(a)\\1" } ⟨"/repo"⟩
      (by decide) (by decide) (Or.inr (Or.inl (by decide)))).2.2 (by decide),
   (c3_pcre_retry c3FailOracle { pattern := some "(a)\\1" } ⟨"/repo"⟩
      (by decide) (by decide) (Or.inr (Or.inl (by decide)))).1⟩

/-- Oracle for a successful ripgrep run whose stdout lacks the stats
block, leaving the searched-files count unknown. -/
def c6Oracle : List String → ExecResult := fun _ =>
  { code := 0, stdout := some "", stderr := some "" }

/-- C6 counterexample: a successful lexical run returns
`[s:-1 m:0 complete]` followed by a single newline — the unknown count is
printed as `-1`, not `?`, and no blank line separates header and body
(the text contains no `\n\n` at all), contradicting the claimed format. -/
theorem c6_counterexample :
    (execRipgrep c6Oracle { pattern := some "x" } ⟨"/repo"⟩).isError = false ∧
    (execRipgrep c6Oracle { pattern := some "x" } ⟨"/repo"⟩).text =
      "[s:-1 m:0 complete]" ++ "\n" ++ "No matches found" ∧
    containsSub (execRipgrep c6Oracle { pattern := some "x" } ⟨"/repo"⟩).text "\n\n"
      = false := by
  exact ⟨by decide, by decide, by decide⟩

/-- C6 (amended): every successful response of either engine begins with
a one-line header followed by a single newline (no blank line) and the
cleaned body; the header is `[s:<N> m:<M> complete]` for the lexical
engine, where `N` and `M` are the parsed counts and an unknown count
prints as `-1`, and `[ix:<N> m:<M> complete]` for the semantic engine,
where `N` prints as `?` unless positive; `N` and `M` equal the
`filesSearched`/`filesMatched` fields of the response details. -/
theorem c6_header_format (ex colEx : List String → ExecResult) (p : Params) (ctx : Ctx) :
    ((execRipgrep ex p ctx).isError = false →
      ∃ (n m : Int) (body : String) (d : GrepDetails),
        (execRipgrep ex p ctx).details = some d ∧
        d.filesSearched = some n ∧ d.filesMatched = some m ∧
        (execRipgrep ex p ctx).text = rgHeader n m ++ "\n" ++ body) ∧
    ((execColgrep colEx p ctx).isError = false →
      ∃ (n : Int) (m : Nat) (body : String) (d : GrepDetails),
        (execColgrep colEx p ctx).details = some d ∧
        d.filesSearched = some n ∧ d.filesMatched = some (m : Int) ∧
        (execColgrep colEx p ctx).text = colHeader n m ++ "\n" ++ body) := by
  constructor
  · intro hok
    rcases execRipgrep_shape ex p ctx with ⟨herr, _⟩ | ⟨code, raw, heq⟩
    · rw [hok] at herr; exact absurd herr (by simp)
    · obtain ⟨n, m, body, d, hresp, _, hn, hm⟩ := rgProcess_success p ctx code raw
      rw [heq, hresp]
      exact ⟨n, m, body, d, rfl, hn, hm, rfl⟩
  · intro hok
    rcases execColgrep_shape colEx p ctx with ⟨herr, _⟩ | ⟨n, m, body, d, hresp, _, hn, hm⟩
    · rw [hok] at herr; exact absurd herr (by simp)
    · rw [hresp]
      exact ⟨n, m, body, d, rfl, hn, hm, rfl⟩

/-- Oracle for a populated successful ripgrep run with a stats block. -/
def c6WitnessOracle : List String → ExecResult := fun _ =>
  { code := 0
    stdout := some
      "src/a.ts\n1:hit\n1 matches\n1 matched lines\n1 files contained matches\n2 files searched\n"
    stderr := some "" }

/-- C6 witness: the populated success response decomposes as header,
newline, body, with the details counts matching the header. -/
theorem c6_header_format_witness :
    ∃ (n m : Int) (body : String) (d : GrepDetails),
      (execRipgrep c6WitnessOracle { pattern := some "hit" } ⟨"/repo"⟩).details = some d ∧
      d.filesSearched = some n ∧ d.filesMatched = some m ∧
      (execRipgrep c6WitnessOracle { pattern := some "hit" } ⟨"/repo"⟩).text =
        rgHeader n m ++ "\n" ++ body :=
  (c6_header_format c6WitnessOracle c6WitnessOracle { pattern := some "hit" } ⟨"/repo"⟩).1
    (by decide)

/-- Oracle for a colgrep run whose output repeats one file/range line. -/
def c8Oracle : List String → ExecResult := fun _ =>
  { code := 0, stdout := some "a.ts:1-2 first\na.ts:1-2 second"
    stderr := some "3 files" }

/-- C8 counterexample: a successful semantic-engine run whose output
repeats a `path:range` line yields a matched-files list with an exact
duplicate — the colgrep file loop never deduplicates. -/
theorem c8_counterexample :
    (execColgrep c8Oracle { query := some "dup" } ⟨"/repo"⟩).isError = false ∧
    ((execColgrep c8Oracle { query := some "dup" } ⟨"/repo"⟩).details.bind
        (fun d => d.files)) = some ["a.ts:1-2", "a.ts:1-2"] ∧
    ¬ (["a.ts:1-2", "a.ts:1-2"] : List String).Nodup := by
  exact ⟨by decide, by decide, by decide⟩

/-- C8 (amended): the lexical engine's file list is duplicate-free,
preserves the order of appearance of the heading lines, and contains
exactly the headings of the kept output; the semantic engine's file list
is the in-order concatenation of each output line's contribution —
appearance order, but duplicates are retained. -/
theorem c8_files_order (ls : List String) (fo : Bool) :
    (collectRgFiles ls).Nodup ∧
    (collectRgFiles ls).Sublist (ls.filter (fun l => isHeadingLine l)) ∧
    (∀ x, x ∈ collectRgFiles ls ↔ x ∈ ls.filter (fun l => isHeadingLine l)) ∧
    colCollectFiles fo ls = ls.filterMap (colLineEntry fo) := by
  refine ⟨?_, ?_, ?_, ?_⟩
  · exact collectRgGo_nodup ls [] List.nodup_nil
  · simpa only [List.nil_append] using collectRgGo_sublist ls []
  · intro x
    have h := collectRgGo_mem ls [] x
    simpa only [List.not_mem_nil, false_or] using h
  · simpa only [List.nil_append] using colCollectGo_eq_filterMap fo ls []

/-- C8 witness: the lexical list deduplicates a repeated heading; the
semantic list is the per-line extraction. -/
theorem c8_files_order_witness :
    (collectRgFiles ["a.ts", "1:x", "a.ts", "2:y", "b.ts"]).Nodup ∧
    colCollectFiles false ["a.ts:1-2 x"] =
      List.filterMap (colLineEntry false) ["a.ts:1-2 x"] :=
  ⟨(c8_files_order ["a.ts", "1:x", "a.ts", "2:y", "b.ts"] false).1,
   (c8_files_order ["a.ts:1-2 x"] false).2.2.2⟩

-- ── gate lemmas ─────────────────────────────────────────────────────────

/-- Membership after map-style insertion. -/
theorem insertId_mem (id x : String) (l : List String) :
    x ∈ insertId id l ↔ (x = id ∨ x ∈ l) := by
  unfold insertId
  split
  · next h =>
    have hid : id ∈ l := by simpa using h
    constructor
    · exact Or.inr
    · rintro (rfl | hx)
      · exact hid
      · exact hx
  · simp [List.mem_cons]

/-- Map-style insertion keeps the key list duplicate-free. -/
theorem insertId_nodup (id : String) (l : List String) (h : l.Nodup) :
    (insertId id l).Nodup := by
  unfold insertId
  split
  · exact h
  · next hni => exact List.Nodup.cons (by simpa using hni) h

/-- Clearing a timer never touches releases. -/
theorem gateClearTimer_releases (s : GateState) (id : String) :
    (gateClearTimer s id).releases = s.releases := by
  unfold gateClearTimer; split <;> rfl

/-- Clearing a timer never touches the firing log. -/
theorem gateClearTimer_fired (s : GateState) (id : String) :
    (gateClearTimer s id).fired = s.fired := by
  unfold gateClearTimer; split <;> rfl

/-- Clearing one timer keeps every other timer entry. -/
theorem gateClearTimer_timers_ne (s : GateState) (id x : String) (hx : x ≠ id) :
    x ∈ (gateClearTimer s id).timers ↔ x ∈ s.timers := by
  unfold gateClearTimer
  split
  · simp [List.mem_erase_of_ne hx]
  · rfl

/-- Releasing an absent ticket is a strict no-op. -/
theorem gateRelease_absent (s : GateState) (id : String) (h : id ∉ s.releases) :
    gateRelease s id = s := by
  unfold gateRelease
  rw [if_neg (by simpa using h)]

/-- Releasing a pending ticket (with duplicate-free keys) fires it once
and removes it, leaving timers alone. -/
theorem gateRelease_present (s : GateState) (id : String) (h : id ∈ s.releases)
    (hnd : s.releases.Nodup) :
    (gateRelease s id).fired = s.fired ++ [id] ∧
    id ∉ (gateRelease s id).releases ∧
    (gateRelease s id).timers = s.timers := by
  unfold gateRelease
  rw [if_pos (by simpa using h)]
  refine ⟨rfl, ?_, rfl⟩
  intro hx
  exact absurd ((List.Nodup.mem_erase_iff hnd).mp hx).1 (by simp)

/-- Releasing one ticket keeps membership of every other key. -/
theorem gateRelease_releases_ne (s : GateState) (id x : String) (hx : x ≠ id) :
    x ∈ (gateRelease s id).releases ↔ x ∈ s.releases := by
  unfold gateRelease
  split
  · simp [List.mem_erase_of_ne hx]
  · rfl

/-- Releasing one ticket never changes another key's firing count. -/
theorem gateRelease_count_ne (s : GateState) (id x : String) (hx : x ≠ id) :
    (gateRelease s id).fired.count x = s.fired.count x := by
  unfold gateRelease
  split
  · simp [List.count_append, List.count_singleton', hx.symm]
  · rfl

/-- Releasing never touches timers. -/
theorem gateRelease_timers (s : GateState) (id : String) :
    (gateRelease s id).timers = s.timers := by
  unfold gateRelease; split <;> rfl

/-- Releasing keeps the releases key list duplicate-free. -/
theorem gateRelease_nodup (s : GateState) (id : String) (h : s.releases.Nodup) :
    (gateRelease s id).releases.Nodup := by
  unfold gateRelease
  split
  · exact List.Nodup.erase _ h
  · exact h

/-- Gate steps keep the releases key list duplicate-free. -/
theorem gateStep_releases_nodup (s : GateState) (e : GateEvent)
    (h : s.releases.Nodup) : (gateStep s e).releases.Nodup := by
  cases e with
  | call ev =>
    simp only [gateStep]
    split
    · exact insertId_nodup _ _ h
    · exact h
  | result id =>
    simp only [gateStep]
    exact gateRelease_nodup _ _ (by rw [gateClearTimer_releases]; exact h)
  | timerFire id =>
    simp only [gateStep]
    split
    · exact gateRelease_nodup _ _ h
    · exact h

/-- Running a trace containing no gated call for `id`, from a state where
`id` holds no pending release, never fires `id` and never re-adds it. -/
theorem gate_run_no_call (id : String) (es : List GateEvent) :
    ∀ s : GateState, countGatedCalls id es = 0 → id ∉ s.releases →
      (es.foldl gateStep s).fired.count id = s.fired.count id ∧
      id ∉ (es.foldl gateStep s).releases := by
  induction es with
  | nil => intro s _ h; exact ⟨rfl, h⟩
  | cons e es ih =>
    intro s hc hr
    rw [countGatedCalls, List.countP_cons] at hc
    have hc1 : countGatedCalls id es = 0 := by rw [countGatedCalls]; omega
    rw [List.foldl_cons]
    have hfired : (gateStep s e).fired.count id = s.fired.count id ∧
        id ∉ (gateStep s e).releases := by
      cases e with
      | call ev =>
        by_cases hg : isGated ev = true
        · have hne : ev.toolCallId ≠ id := by
            intro hEq
            simp [hg, hEq] at hc
          simp only [gateStep, hg, if_true]
          refine ⟨by trivial, ?_⟩
          intro hmem
          rcases (insertId_mem _ _ _).mp hmem with hEq | hmem2
          · exact hne hEq.symm
          · exact hr hmem2
        · simp only [gateStep, hg, Bool.false_eq_true, if_false]
          exact ⟨by trivial, hr⟩
      | result rid =>
        simp only [gateStep]
        by_cases hrid : rid = id
        · subst hrid
          have h1 : rid ∉ (gateClearTimer s rid).releases := by
            rw [gateClearTimer_releases]; exact hr
          rw [gateRelease_absent _ _ h1]
          rw [gateClearTimer_fired, gateClearTimer_releases]
          exact ⟨rfl, hr⟩
        · have hne : id ≠ rid := fun h => hrid h.symm
          constructor
          · rw [gateRelease_count_ne _ _ _ hne, gateClearTimer_fired]
          · intro hmem
            have h2 := (gateRelease_releases_ne _ _ _ hne).mp hmem
            rw [gateClearTimer_releases] at h2
            exact hr h2
      | timerFire tid =>
        simp only [gateStep]
        split
        · by_cases htid : tid = id
          · subst htid
            rw [gateRelease_absent _ _ hr]
            exact ⟨rfl, hr⟩
          · have hne : id ≠ tid := fun h => htid h.symm
            constructor
            · rw [gateRelease_count_ne _ _ _ hne]
            · intro hmem
              exact hr ((gateRelease_releases_ne _ _ _ hne).mp hmem)
        · exact ⟨rfl, hr⟩
    obtain ⟨ha, hb⟩ := ih (gateStep s e) hc1 hfired.2
    exact ⟨by rw [ha, hfired.1], hb⟩

/-- A trace without gated calls for `id` whose suffix still notifies or
expires `id` fires the pending release exactly once. -/
theorem gate_run_pending (id : String) (es : List GateEvent) :
    ∀ s : GateState, countGatedCalls id es = 0 →
      id ∈ s.releases → id ∈ s.timers → s.releases.Nodup →
      (GateEvent.result id ∈ es ∨ GateEvent.timerFire id ∈ es) →
      (es.foldl gateStep s).fired.count id = s.fired.count id + 1 := by
  induction es with
  | nil =>
    intro s _ _ _ _ hev
    rcases hev with h | h <;> simp at h
  | cons e es ih =>
    intro s hc hrel htim hnd hev
    rw [countGatedCalls, List.countP_cons] at hc
    have hc1 : countGatedCalls id es = 0 := by rw [countGatedCalls]; omega
    rw [List.foldl_cons]
    by_cases hfireNow : e = GateEvent.result id ∨ e = GateEvent.timerFire id
    · have hstep : (gateStep s e).fired = s.fired ++ [id] ∧
          id ∉ (gateStep s e).releases := by
        rcases hfireNow with rfl | rfl
        · simp only [gateStep]
          have h1 : id ∈ (gateClearTimer s id).releases := by
            rw [gateClearTimer_releases]; exact hrel
          have hnd1 : (gateClearTimer s id).releases.Nodup := by
            rw [gateClearTimer_releases]; exact hnd
          obtain ⟨hf, hnr, _⟩ := gateRelease_present _ _ h1 hnd1
          rw [gateClearTimer_fired] at hf
          exact ⟨hf, hnr⟩
        · simp only [gateStep]
          rw [if_pos (by simpa using htim)]
          obtain ⟨hf, hnr, _⟩ := gateRelease_present _ _ hrel hnd
          exact ⟨hf, hnr⟩
      obtain ⟨ha, _⟩ := gate_run_no_call id es (gateStep s e) hc1 hstep.2
      rw [ha, hstep.1]
      simp [List.count_append]
    · push_neg at hfireNow
      have hev2 : GateEvent.result id ∈ es ∨ GateEvent.timerFire id ∈ es := by
        rcases hev with h | h
        · rcases List.mem_cons.mp h with rfl | h2
          · exact absurd rfl hfireNow.1
          · exact Or.inl h2
        · rcases List.mem_cons.mp h with rfl | h2
          · exact absurd rfl hfireNow.2
          · exact Or.inr h2
      have hpres : (gateStep s e).fired.count id = s.fired.count id ∧
          id ∈ (gateStep s e).releases ∧ id ∈ (gateStep s e).timers ∧
          (gateStep s e).releases.Nodup := by
        cases e with
        | call ev =>
          by_cases hg : isGated ev = true
          · simp only [gateStep, hg, if_true]
            refine ⟨by trivial, ?_, ?_, insertId_nodup _ _ hnd⟩
            · exact (insertId_mem _ _ _).mpr (Or.inr hrel)
            · exact (insertId_mem _ _ _).mpr (Or.inr htim)
          · simp only [gateStep, hg, Bool.false_eq_true, if_false]
            exact ⟨by trivial, hrel, htim, hnd⟩
        | result rid =>
          have hne : id ≠ rid := by
            intro h
            exact hfireNow.1 (by rw [h])
          simp only [gateStep]
          refine ⟨?_, ?_, ?_, ?_⟩
          · rw [gateRelease_count_ne _ _ _ hne, gateClearTimer_fired]
          · rw [gateRelease_releases_ne _ _ _ hne, gateClearTimer_releases]
            exact hrel
          · rw [gateRelease_timers]
            exact (gateClearTimer_timers_ne _ _ _ hne).mpr htim
          · exact gateRelease_nodup _ _ (by rw [gateClearTimer_releases]; exact hnd)
        | timerFire tid =>
          have hne : id ≠ tid := by
            intro h
            exact hfireNow.2 (by rw [h])
          simp only [gateStep]
          split
          · refine ⟨?_, ?_, ?_, gateRelease_nodup _ _ hnd⟩
            · rw [gateRelease_count_ne _ _ _ hne]
            · exact (gateRelease_releases_ne _ _ _ hne).mpr hrel
            · rw [gateRelease_timers]
              exact htim
          · exact ⟨by trivial, hrel, htim, hnd⟩
      obtain ⟨h1, h2, h3, h4⟩ := hpres
      rw [ih (gateStep s e) hc1 h2 h3 h4 hev2, h1]

/-- Per-step accounting: firings plus the pending-release indicator grow
by at most the step's gated-call contribution. -/
theorem gateStep_le (s : GateState) (e : GateEvent) (id : String)
    (hnd : s.releases.Nodup) :
    (gateStep s e).fired.count id + (if id ∈ (gateStep s e).releases then 1 else 0) ≤
      s.fired.count id + (if id ∈ s.releases then 1 else 0) +
        countGatedCalls id [e] := by
  have hrelease : ∀ s' : GateState, s'.releases.Nodup →
      (gateRelease s' id).fired.count id +
          (if id ∈ (gateRelease s' id).releases then 1 else 0) =
        s'.fired.count id + (if id ∈ s'.releases then 1 else 0) := by
    intro s' hnd'
    by_cases hm : id ∈ s'.releases
    · obtain ⟨hf, hnr, _⟩ := gateRelease_present s' id hm hnd'
      rw [hf]
      simp [List.count_append, hm, hnr]
    · rw [gateRelease_absent s' id hm]
  have hreleaseNe : ∀ (s' : GateState) (rid : String), id ≠ rid →
      (gateRelease s' rid).fired.count id +
          (if id ∈ (gateRelease s' rid).releases then 1 else 0) =
        s'.fired.count id + (if id ∈ s'.releases then 1 else 0) := by
    intro s' rid hne
    rw [gateRelease_count_ne _ _ _ hne]
    have hite : (if id ∈ (gateRelease s' rid).releases then 1 else 0) =
        (if id ∈ s'.releases then 1 else 0) := by
      by_cases hm : id ∈ s'.releases
      · rw [if_pos hm, if_pos ((gateRelease_releases_ne _ _ _ hne).mpr hm)]
      · rw [if_neg hm, if_neg (fun hx => hm ((gateRelease_releases_ne _ _ _ hne).mp hx))]
    rw [hite]
  cases e with
  | call ev =>
    by_cases hg : isGated ev = true
    · by_cases hid : ev.toolCallId = id
      · have hc : countGatedCalls id [GateEvent.call ev] = 1 := by
          simp [countGatedCalls, List.countP_cons, hg, hid]
        rw [hc]
        simp only [gateStep, hg, if_true]
        have hmem : id ∈ insertId ev.toolCallId s.releases :=
          (insertId_mem _ _ _).mpr (Or.inl hid.symm)
        simp only [hmem, if_true]
        omega
      · have hc : countGatedCalls id [GateEvent.call ev] = 0 := by
          simp [countGatedCalls, List.countP_cons, hid]
        rw [hc]
        simp only [gateStep, hg, if_true]
        have hite : (if id ∈ insertId ev.toolCallId s.releases then 1 else 0) =
            (if id ∈ s.releases then 1 else 0) := by
          by_cases hm : id ∈ s.releases
          · rw [if_pos hm, if_pos ((insertId_mem _ _ _).mpr (Or.inr hm))]
          · rw [if_neg hm, if_neg ?_]
            intro hx
            rcases (insertId_mem _ _ _).mp hx with hEq | hx2
            · exact hid hEq.symm
            · exact hm hx2
        rw [hite]
        omega
    · have hc : countGatedCalls id [GateEvent.call ev] = 0 := by
        simp [countGatedCalls, List.countP_cons, hg]
      rw [hc]
      simp only [gateStep, hg, Bool.false_eq_true, if_false]
      omega
  | result rid =>
    have hc : countGatedCalls id [GateEvent.result rid] = 0 := by
      simp [countGatedCalls, List.countP_cons]
    rw [hc]
    simp only [gateStep]
    by_cases hrid : rid = id
    · subst hrid
      rw [hrelease _ (by rw [gateClearTimer_releases]; exact hnd)]
      rw [gateClearTimer_fired, gateClearTimer_releases]
      omega
    · rw [hreleaseNe _ _ (fun h => hrid h.symm)]
      rw [gateClearTimer_fired, gateClearTimer_releases]
      omega
  | timerFire tid =>
    have hc : countGatedCalls id [GateEvent.timerFire tid] = 0 := by
      simp [countGatedCalls, List.countP_cons]
    rw [hc]
    simp only [gateStep]
    split
    · by_cases htid : tid = id
      · subst htid
        rw [hrelease _ hnd]
        omega
      · rw [hreleaseNe _ _ (fun h => htid h.symm)]
        omega
    · omega

/-- Trace accounting: total firings for `id` are bounded by the initial
state's pending indicator plus the number of gated calls for `id`. -/
theorem gate_run_le (id : String) (es : List GateEvent) :
    ∀ s : GateState, s.releases.Nodup →
      (es.foldl gateStep s).fired.count id ≤
        s.fired.count id + (if id ∈ s.releases then 1 else 0) +
          countGatedCalls id es := by
  induction es with
  | nil =>
    intro s _
    simp [countGatedCalls]
  | cons e es ih =>
    intro s hnd
    rw [List.foldl_cons]
    have h1 := ih (gateStep s e) (gateStep_releases_nodup s e hnd)
    have h2 := gateStep_le s e id hnd
    have hsplit : countGatedCalls id (e :: es) =
        countGatedCalls id [e] + countGatedCalls id es := by
      simp [countGatedCalls, List.countP_cons]
      omega
    rw [hsplit]
    omega

/-- Any gate run keeps the releases key list duplicate-free. -/
theorem gate_run_nodup (es : List GateEvent) :
    ∀ s : GateState, s.releases.Nodup → (es.foldl gateStep s).releases.Nodup := by
  induction es with
  | nil => intro s h; exact h
  | cons e es ih =>
    intro s h
    rw [List.foldl_cons]
    exact ih _ (gateStep_releases_nodup s e h)

/-- C5: for every gated operation, the release stored on the call-started
event fires at most once over any trace with a single gated call for that
ticket, and exactly once as soon as the completion notification or the
armed auto-release timer event arrives; a release arriving once the
ticket is absent (after auto-release, or a second release) is a no-op on
the firing log; the auto-release delay is 120 seconds. -/
theorem c5_gate_release_once (es pre post : List GateEvent) (ev : ToolCallEvent)
    (id : String) (s : GateState) :
    (countGatedCalls id es ≤ 1 → (runGate es).fired.count id ≤ 1) ∧
    (isGated ev = true → ev.toolCallId = id →
      countGatedCalls id pre = 0 → countGatedCalls id post = 0 →
      (GateEvent.result id ∈ post ∨ GateEvent.timerFire id ∈ post) →
      (runGate (pre ++ GateEvent.call ev :: post)).fired.count id = 1) ∧
    (id ∉ s.releases →
      (gateStep s (GateEvent.result id)).fired = s.fired ∧
      (gateStep s (GateEvent.timerFire id)).fired = s.fired) ∧
    autoReleaseMs = 120 * 1000 := by
  refine ⟨?_, ?_, ?_, rfl⟩
  · intro hle
    have h := gate_run_le id es {} (by simp)
    rw [runGate]
    simp at h
    omega
  · intro hg hid hpre hpost hev
    rw [runGate, List.foldl_append, List.foldl_cons]
    obtain ⟨ha0, hb0⟩ := gate_run_no_call id pre {} hpre (by simp)
    have hstep : gateStep (pre.foldl gateStep {}) (GateEvent.call ev) =
        { pre.foldl gateStep {} with
            releases := insertId id (pre.foldl gateStep {}).releases
            timers := insertId id (pre.foldl gateStep {}).timers } := by
      simp only [gateStep, hg, if_true, hid]
    rw [hstep]
    have hrel : id ∈ insertId id (pre.foldl gateStep {}).releases :=
      (insertId_mem _ _ _).mpr (Or.inl rfl)
    have htim : id ∈ insertId id (pre.foldl gateStep {}).timers :=
      (insertId_mem _ _ _).mpr (Or.inl rfl)
    have hnd : (insertId id (pre.foldl gateStep {}).releases).Nodup :=
      insertId_nodup _ _ (gate_run_nodup pre {} (by simp))
    rw [gate_run_pending id post _ hpost hrel htim hnd hev]
    show (pre.foldl gateStep {}).fired.count id + 1 = 1
    rw [ha0]
    simp
  · intro hr
    constructor
    · show (gateRelease (gateClearTimer s id) id).fired = s.fired
      rw [gateRelease_absent _ _ (by rw [gateClearTimer_releases]; exact hr),
        gateClearTimer_fired]
    · show (if s.timers.contains id then gateRelease s id else s).fired = s.fired
      split
      · rw [gateRelease_absent _ _ hr]
      · rfl

/-- C5 witness: one gated call whose timer fires and whose (late)
completion notification then arrives releases exactly once. -/
theorem c5_gate_release_once_witness :
    (runGate
      [GateEvent.call { toolCallId := "t1", toolName := "grep", inputQuery := some "q" },
       GateEvent.timerFire "t1", GateEvent.result "t1"]).fired.count "t1" = 1 :=
  (c5_gate_release_once [] [] [GateEvent.timerFire "t1", GateEvent.result "t1"]
      { toolCallId := "t1", toolName := "grep", inputQuery := some "q" } "t1" {}).2.1
    (by decide) (by decide) (by decide) (by decide) (Or.inr (by decide))

/-- C4: with `M` matched lines and requested offset `k`, the offset pass
keeps exactly `M − k` matched lines (saturating at 0 when `k ≥ M`), a
heading appears in the kept output only immediately before a kept matched
line (and not at all once every match is suppressed), and whenever
suppression empties the output the run returns the zero-result success
response rather than an error. -/
theorem c4_offset_handling :
    (∀ (lines : List String) (k : Nat), 0 < k → k < countMatchLines lines →
      countMatchLines (offsetPass k lines) = countMatchLines lines - k) ∧
    (∀ (lines : List String) (k : Nat), headingsCovered (offsetPass k lines) = true) ∧
    (∀ (lines : List String) (k : Nat), countMatchLines lines ≤ k →
      countMatchLines (offsetPass k lines) = 0 ∧
      (offsetPass k lines).countP (fun x => isHeadingLine x) = 0) ∧
    (∀ (p : Params) (ctx : Ctx) (code : Int) (raw : String) (k : Nat),
      jsOffset p.offset = k → 0 < k →
      jsTrim (joinLines (offsetPass k (jsSplitLines (parseAndStripRgStats raw).clean))) = "" →
      rgProcess p ctx code raw = rgZeroResp p (parseAndStripRgStats raw).filesSearched ∧
      (rgProcess p ctx code raw).isError = false ∧
      ∃ d, (rgProcess p ctx code raw).details = some d ∧ d.resultCount = 0) := by
  refine ⟨?_, ?_, ?_, ?_⟩
  · intro lines k _ _
    rw [offsetPass, offsetGo_count k lines 0 "" isMatchLine_empty]
    simp
  · intro lines k
    exact offsetGo_covered k lines 0 "" (Or.inl rfl)
  · intro lines k hk
    constructor
    · rw [offsetPass, offsetGo_count k lines 0 "" isMatchLine_empty]
      omega
    · rw [offsetPass]
      exact offsetGo_no_heading k lines 0 "" (by simpa using hk)
  · intro p ctx code raw k hk hkpos hempty
    have hzero : rgProcess p ctx code raw =
        rgZeroResp p (parseAndStripRgStats raw).filesSearched := by
      unfold rgProcess
      dsimp only
      split
      · rfl
      · rw [hk, if_pos hkpos, if_pos hempty]
    refine ⟨hzero, by rw [hzero]; rfl, ?_⟩
    rw [hzero]
    exact ⟨_, rfl, rfl⟩

/-- C4 witness: ten matches with offset 3 keep seven; an offset past the
last match yields the zero-result success. -/
theorem c4_offset_handling_witness :
    countMatchLines (offsetPass 3
        ["a.ts", "1:a", "2:b", "3:c", "4:d", "5:e", "b.ts",
         "6:f", "7:g", "8:h", "9:i", "10:j"]) =
      countMatchLines
        ["a.ts", "1:a", "2:b", "3:c", "4:d", "5:e", "b.ts",
         "6:f", "7:g", "8:h", "9:i", "10:j"] - 3 ∧
    rgProcess { pattern := some "x", offset := some 5 } ⟨"/repo"⟩ 0 "a.ts\n1:x\n1 matches\n" =
      rgZeroResp { pattern := some "x", offset := some 5 }
        (parseAndStripRgStats "a.ts\n1:x\n1 matches\n").filesSearched :=
  ⟨c4_offset_handling.1
      ["a.ts", "1:a", "2:b", "3:c", "4:d", "5:e", "b.ts",
       "6:f", "7:g", "8:h", "9:i", "10:j"] 3 (by decide) (by decide),
   (c4_offset_handling.2.2.2 { pattern := some "x", offset := some 5 } ⟨"/repo"⟩ 0
      "a.ts\n1:x\n1 matches\n" 5 (by decide) (by decide) (by decide)).1⟩
